import Mathlib

/-!
# Pizza restaurant system: the order and payment core of `mainwindow.cpp`

A shallow embedding of the classes `Pizza`, `OrderItem`, `Order`, `Payment` and of the two
button handlers of `MainWindow`, with the properties of the specification stated over it.

Prices are C++ `double`s.  They are modelled by `F64`: a finite double is the rational number
it denotes, the two infinities and NaN are separate values, and every arithmetic operation
computes the exact rational result and rounds it once to the nearest binary64 value, ties to
even (`F64.rnd`), as a C++ implementation with IEEE 754 `double` arithmetic does.  The two signed
zeros are identified: they compare equal in C++, `+` and `*` give the same value from either,
and only the formatted text of a negative zero could tell them apart, which no property below
speaks of.  Quantities and indices are C++ `int`s, modelled by `Int`; the program does no
arithmetic on them, and where the 32-bit range matters it is a hypothesis.
-/

/-! ## IEEE 754 binary64 arithmetic -/

/-- A value of the C++ type `double` (IEEE 754 binary64): a finite value, given by the
rational number it denotes, plus or minus infinity, or NaN. -/
inductive F64 where
  | fin (q : ℚ)
  | pinf
  | ninf
  | nan
  deriving DecidableEq, Repr

namespace F64

/-- Auxiliary recursion for `ilog2`; the first argument bounds the number of halvings. -/
def log2Aux : Nat → Nat → Nat
  | 0, _ => 0
  | fuel + 1, n => if n < 2 then 0 else log2Aux fuel (n / 2) + 1

/-- The position of the leading bit of `n`: the largest `k` with `2 ^ k ≤ n` (0 for `n = 0`). -/
def ilog2 (n : Nat) : Nat := log2Aux n n

/-- The quotient `n / d` rounded to the nearest natural number, a tie going to the even
neighbour. -/
def divRoundEven (n d : Nat) : Nat :=
  if 2 * (n % d) < d then n / d
  else if d < 2 * (n % d) then n / d + 1
  else if (n / d) % 2 = 0 then n / d else n / d + 1

/-- The binary exponent of the positive fraction `n / d`: the integer `e` with
`2 ^ e ≤ n / d < 2 ^ (e + 1)`. -/
def floorLog2 (n d : Nat) : Int :=
  let e0 : Int := (ilog2 n : Int) - (ilog2 d : Int)
  if d * 2 ^ e0.toNat ≤ n * 2 ^ (-e0).toNat then e0 else e0 - 1

/-- The exponent of the unit in the last place that binary64 offers at the magnitude `n / d`:
53 significant bits, and never below the subnormal spacing `2 ^ (-1074)`. -/
def ulpExp (n d : Nat) : Int := max (floorLog2 n d - 52) (-1074)

/-- The significand of the double nearest to `n / d`: `n / d` counted in units in the last
place, rounded to nearest, ties to even. -/
def roundMag (n d : Nat) : Nat :=
  divRoundEven (n * 2 ^ (-(ulpExp n d)).toNat) (d * 2 ^ (ulpExp n d).toNat)

/-- The rational number `m * 2 ^ u`. -/
def scale (m : Nat) (u : Int) : ℚ :=
  mkRat ((m * 2 ^ u.toNat : Nat) : Int) (2 ^ (-u).toNat)

/-- Rounding of an exact rational result to binary64, round to nearest, ties to even.  A result
whose rounded magnitude reaches `2 ^ 1024` overflows to the infinity of its sign. -/
def rnd (q : ℚ) : F64 :=
  if q = 0 then fin 0
  else
    let u := ulpExp q.num.natAbs q.den
    let m := roundMag q.num.natAbs q.den
    if 971 < u ∨ (u = 971 ∧ 2 ^ 53 ≤ m) then (if q < 0 then ninf else pinf)
    else if q < 0 then fin (-scale m u) else fin (scale m u)

/-- The values that really are doubles: a finite value must be one that rounding leaves
alone. -/
def IsDouble : F64 → Prop
  | fin q => rnd q = fin q
  | _ => True

instance (x : F64) : Decidable (IsDouble x) := by
  cases x <;> unfold IsDouble <;> infer_instance

/-- The conversion `int → double` that C++ applies to the quantity in `price * qty`. -/
def ofInt (z : Int) : F64 := rnd (z : ℚ)

/-- The addition `a + b` on `double`. -/
def add : F64 → F64 → F64
  | fin a, fin b => rnd (a + b)
  | nan, _ => nan
  | _, nan => nan
  | pinf, ninf => nan
  | ninf, pinf => nan
  | pinf, _ => pinf
  | _, pinf => pinf
  | ninf, _ => ninf
  | _, ninf => ninf

/-- The multiplication `a * b` on `double`. -/
def mul : F64 → F64 → F64
  | fin a, fin b => rnd (a * b)
  | nan, _ => nan
  | _, nan => nan
  | pinf, fin b => if b = 0 then nan else if b < 0 then ninf else pinf
  | ninf, fin b => if b = 0 then nan else if b < 0 then pinf else ninf
  | fin a, pinf => if a = 0 then nan else if a < 0 then ninf else pinf
  | fin a, ninf => if a = 0 then nan else if a < 0 then pinf else ninf
  | pinf, pinf => pinf
  | ninf, ninf => pinf
  | pinf, ninf => ninf
  | ninf, pinf => ninf

end F64

/-! ## The domain classes -/

/-- The class `Pizza`: a name and a unit price. -/
structure Pizza where
  m_name : String
  m_price : F64
  deriving DecidableEq, Repr

/-- The constructor `Pizza::Pizza(name, price)`. -/
def Pizza.new (name : String) (price : F64) : Pizza := { m_name := name, m_price := price }

/-- The getter `Pizza::name()`. -/
def Pizza.name (p : Pizza) : String := p.m_name

/-- The getter `Pizza::price()`. -/
def Pizza.price (p : Pizza) : F64 := p.m_price

/-- The class `OrderItem`: a copy of a pizza and an `int` quantity. -/
structure OrderItem where
  m_pizza : Pizza
  m_qty : Int
  deriving DecidableEq, Repr

/-- The constructor `OrderItem::OrderItem(pizza, qty)`: two member initialisers and an empty
body. -/
def OrderItem.new (pizza : Pizza) (qty : Int) : OrderItem := { m_pizza := pizza, m_qty := qty }

/-- The getter `OrderItem::pizza()`. -/
def OrderItem.pizza (it : OrderItem) : Pizza := it.m_pizza

/-- The getter `OrderItem::quantity()`. -/
def OrderItem.quantity (it : OrderItem) : Int := it.m_qty

/-- The method `OrderItem::totalPrice()`: `m_pizza.price() * m_qty`, the quantity converted to
`double` and the product taken in `double`. -/
def OrderItem.totalPrice (it : OrderItem) : F64 :=
  F64.mul it.m_pizza.price (F64.ofInt it.m_qty)

/-- The class `Order`: the vector `m_items`. -/
structure Order where
  m_items : List OrderItem
  deriving DecidableEq, Repr

/-- A default-constructed `Order`, its vector empty. -/
def Order.empty : Order := { m_items := [] }

/-- The method `Order::addItem(item)`: `m_items.push_back(item)`. -/
def Order.addItem (o : Order) (item : OrderItem) : Order := { m_items := o.m_items ++ [item] }

/-- The method `Order::total()`: the accumulator starts at `0` and takes `sum += it.totalPrice()`
for every item, front to back. -/
def Order.total (o : Order) : F64 :=
  o.m_items.foldl (fun sum it => F64.add sum it.totalPrice) (F64.fin 0)

/-- The method `Order::items()`. -/
def Order.items (o : Order) : List OrderItem := o.m_items

/-- The method `Order::clear()`: `m_items.clear()`. -/
def Order.clear (_o : Order) : Order := { m_items := [] }

/-- The enumeration `PaymentMethod`, with the three enumerators `mainwindow.cpp` uses. -/
inductive PaymentMethod where
  | Cash
  | CreditCard
  | MobilePay
  deriving DecidableEq, Repr

/-- The class `Payment`: its own copy of the order, the method, and the amount. -/
structure Payment where
  m_order : Order
  m_method : PaymentMethod
  m_amount : F64
  deriving DecidableEq, Repr

/-- The constructor `Payment::Payment(order, method)`: copies the order, saves the method and
initialises `m_amount` with `order.total()`. -/
def Payment.new (order : Order) (method : PaymentMethod) : Payment :=
  { m_order := order, m_method := method, m_amount := order.total }

/-- The method `Payment::process()`, which is not `const`: the result is the returned `bool`
together with the payment object after the call.  The body is `return true;`. -/
def Payment.process (p : Payment) : Bool × Payment := (true, p)

/-- The getter `Payment::amount()`. -/
def Payment.amount (p : Payment) : F64 := p.m_amount

/-- The getter `Payment::method()`. -/
def Payment.method (p : Payment) : PaymentMethod := p.m_method

/-! ## Sequences of calls on an order -/

/-- A run of `addItem` calls, one per element of `xs`, in list order. -/
def Order.addItems (o : Order) (xs : List OrderItem) : Order := xs.foldl Order.addItem o

/-- A mutation of a live order: one of the two non-`const` methods of `Order`. -/
inductive OrderOp where
  | addItem (item : OrderItem)
  | clear
  deriving DecidableEq, Repr

/-- The effect of one mutation on an order. -/
def Order.apply (o : Order) : OrderOp → Order
  | .addItem item => o.addItem item
  | .clear => o.clear

/-- A live order next to a payment that was constructed from it.  `Payment` stores its order
and its amount by value, so the two objects share no storage. -/
structure Checkout where
  live : Order
  pay : Payment
  deriving DecidableEq, Repr

/-- The statement `Payment pay(order, method);` executed while `order` is the live order. -/
def Checkout.start (order : Order) (method : PaymentMethod) : Checkout :=
  { live := order, pay := Payment.new order method }

/-- A mutation applied to the live order after the payment exists: it writes the live
order's vector and nothing else. -/
def Checkout.mutate (s : Checkout) (op : OrderOp) : Checkout :=
  { s with live := s.live.apply op }

/-! ## The window and its two button handlers -/

/-- The text formatting calls of the handlers.  `QString::arg` is Qt library code, so the three
formatted texts are parameters of the model:
`orderLine name qty total` is `QString("%1 x%2 = $%3").arg(name).arg(qty).arg(total, 0, 'f', 2)`,
`totalText total` is `QString("$%1").arg(total, 0, 'f', 2)`, and
`paidText amount pm` is `QString("Paid %1 successfully via %2").arg(amount, 0, 'f', 2).arg(pm)`. -/
structure QtFormat where
  orderLine : String → Int → F64 → String
  totalText : F64 → String
  paidText : F64 → String → String

/-- The widgets of `Ui::MainWindow` that the handlers read or write: the entries and the
current index of `pizzaComboBox`, the value of `quantitySpinBox`, the current text of
`paymentComboBox`, the rows of `orderListWidget` and the text of `totalLabel`. -/
structure Ui where
  pizzaComboBox : List String
  pizzaIndex : Int
  quantity : Int
  paymentText : String
  orderListWidget : List String
  totalLabel : String
  deriving DecidableEq, Repr

/-- A message box shown by a handler. -/
inductive Dialog where
  | information (title text : String)
  | warning (title text : String)
  deriving DecidableEq, Repr

/-- The class `MainWindow`: the widgets, the menu, the current order, and the message boxes
shown so far, oldest first. -/
structure MainWindow where
  ui : Ui
  m_menu : List Pizza
  m_currentOrder : Order
  dialogs : List Dialog
  deriving DecidableEq, Repr

/-- The constructor `MainWindow::MainWindow`.  `ui0` is the state of the widgets after
`setupUi`; the constructor builds the three-pizza menu and adds each name to the combo box. -/
def MainWindow.new (ui0 : Ui) : MainWindow :=
  let menu := [Pizza.new "Margherita" (F64.fin 6), Pizza.new "Pepperoni" (F64.fin 8),
    Pizza.new "Hawaiian" (F64.fin 9)]
  { ui := { ui0 with pizzaComboBox := ui0.pizzaComboBox ++ menu.map Pizza.name }
    m_menu := menu
    m_currentOrder := Order.empty
    dialogs := [] }

/-- The user picks a pizza row and a quantity in the two input widgets. -/
def MainWindow.choose (w : MainWindow) (idx qty : Int) : MainWindow :=
  { w with ui := { w.ui with pizzaIndex := idx, quantity := qty } }

/-- The user picks a payment label in `paymentComboBox`. -/
def MainWindow.choosePayment (w : MainWindow) (label : String) : MainWindow :=
  { w with ui := { w.ui with paymentText := label } }

/-- The handler `MainWindow::on_addToOrderButton_clicked`.  `m_menu[idx]` with `idx` past the
end of the vector is undefined behaviour in C++; the model returns `none` there. -/
def MainWindow.on_addToOrderButton_clicked (fmt : QtFormat) (w : MainWindow) :
    Option MainWindow :=
  let idx := w.ui.pizzaIndex
  let qty := w.ui.quantity
  if idx < 0 ∨ qty < 1 then some w
  else
    match w.m_menu.get? idx.toNat with
    | none => none
    | some pz =>
      let item := OrderItem.new pz qty
      let order := w.m_currentOrder.addItem item
      some { w with
        m_currentOrder := order
        ui := { w.ui with
          orderListWidget :=
            order.items.map (fun it => fmt.orderLine it.pizza.name it.quantity it.totalPrice)
          totalLabel := fmt.totalText order.total } }

/-- The local variable `method` of `on_payNowButton_clicked` for the payment text `pm`:
`Cash` by default, replaced when the text is one of the two other labels. -/
def MainWindow.payNow_method (pm : String) : PaymentMethod :=
  if pm = "Credit Card" then PaymentMethod.CreditCard
  else if pm = "Mobile Pay" then PaymentMethod.MobilePay
  else PaymentMethod.Cash

/-- The local variable `pay` of `on_payNowButton_clicked`:
`Payment pay(m_currentOrder, method);`. -/
def MainWindow.payNow_pay (w : MainWindow) : Payment :=
  Payment.new w.m_currentOrder (MainWindow.payNow_method w.ui.paymentText)

/-- The handler `MainWindow::on_payNowButton_clicked`. -/
def MainWindow.on_payNowButton_clicked (fmt : QtFormat) (w : MainWindow) : MainWindow :=
  let pm := w.ui.paymentText
  let res := (MainWindow.payNow_pay w).process
  if res.1 then
    { w with
      dialogs := w.dialogs ++ [Dialog.information "Payment" (fmt.paidText res.2.amount pm)]
      m_currentOrder := w.m_currentOrder.clear
      ui := { w.ui with orderListWidget := [], totalLabel := "$0.00" } }
  else
    { w with dialogs := w.dialogs ++ [Dialog.warning "Payment Failed" "Please try again."] }

/-! ## Example data -/

/-- An example formatter: a row shows the pizza name, the other two texts are fixed. -/
def QtFormat.sample : QtFormat :=
  { orderLine := fun name _ _ => name
    totalText := fun _ => "total"
    paidText := fun _ pm => pm }

/-- An example widget state after `setupUi`: an empty pizza combo box without selection,
quantity 1, payment text "Cash", no rows and a zero total. -/
def Ui.sample : Ui :=
  { pizzaComboBox := []
    pizzaIndex := -1
    quantity := 1
    paymentText := "Cash"
    orderListWidget := []
    totalLabel := "$0.00" }

/-! ## Facts about the rounding -/

namespace F64

theorem log2Aux_pow_le (fuel : Nat) : ∀ n : Nat, n ≠ 0 → 2 ^ log2Aux fuel n ≤ n := by
  induction fuel with
  | zero => intro n hn; simp only [log2Aux, pow_zero]; omega
  | succ k ih =>
    intro n hn
    unfold log2Aux
    split_ifs with h
    · simp only [pow_zero]; omega
    · have h2 : n / 2 ≠ 0 := by omega
      have := ih (n / 2) h2
      rw [pow_succ]
      omega

theorem ilog2_le_of_lt (n k : Nat) (hn : n ≠ 0) (h : n < 2 ^ (k + 1)) : ilog2 n ≤ k := by
  have h1 : 2 ^ ilog2 n ≤ n := log2Aux_pow_le n n hn
  have h2 : 2 ^ ilog2 n < 2 ^ (k + 1) := lt_of_le_of_lt h1 h
  have := (Nat.pow_lt_pow_iff_right (by norm_num : 1 < 2)).1 h2
  omega

theorem divRoundEven_one (x : Nat) : divRoundEven x 1 = x := by
  simp [divRoundEven, Nat.mod_one]

theorem ulpExp_one_bounds (n : Nat) (hn : n ≠ 0) (h : n < 2 ^ 53) :
    -1074 ≤ ulpExp n 1 ∧ ulpExp n 1 ≤ 0 := by
  have h1 := ilog2_le_of_lt n 52 hn h
  have h0 : ilog2 1 = 0 := by decide
  unfold ulpExp floorLog2
  simp only [h0]
  split_ifs <;> omega

theorem scale_exact (n : Nat) (u : Int) (hu : u ≤ 0) :
    scale (n * 2 ^ (-u).toNat) u = (n : ℚ) := by
  unfold scale
  have hu0 : u.toNat = 0 := by omega
  rw [hu0, Rat.mkRat_eq_div]
  push_cast
  field_simp

theorem rnd_natCast (n : Nat) (h : n < 2 ^ 53) : rnd (n : ℚ) = fin (n : ℚ) := by
  by_cases hn : n = 0
  · subst hn; simp [rnd]
  · obtain ⟨hlo, hhi⟩ := ulpExp_one_bounds n hn h
    have hq : ((n : ℚ) = 0) = False := by simp [hn]
    have hneg : ¬ ((n : ℚ) < 0) := by simp
    have hu0 : (ulpExp n 1).toNat = 0 := by omega
    unfold rnd
    simp only [hq, if_false, Rat.num_natCast, Int.natAbs_ofNat, Rat.den_natCast, hneg]
    unfold roundMag
    rw [hu0, pow_zero, mul_one, divRoundEven_one]
    rw [if_neg (by omega), scale_exact n _ hhi]

theorem rnd_neg (q : ℚ) : rnd (-q) = (match rnd q with
    | fin r => fin (-r) | pinf => ninf | ninf => pinf | nan => nan) := by
  by_cases hq : q = 0
  · subst hq; simp [rnd]
  · unfold rnd
    have h1 : ¬ (-q = 0) := by simpa using hq
    simp only [hq, h1, if_false, Rat.num_neg_eq_neg_num, Int.natAbs_neg, Rat.neg_den]
    rcases lt_or_gt_of_ne hq with h | h
    · have h2 : ¬ (-q < 0) := by linarith
      simp only [h, h2, if_true, if_false]
      split_ifs <;> simp
    · have h2 : -q < 0 := by linarith
      have h3 : ¬ (q < 0) := by linarith
      simp only [h2, h3, if_true, if_false]
      split_ifs <;> simp

theorem rnd_intCast (z : Int) (h : z.natAbs ≤ 2 ^ 53) : rnd (z : ℚ) = fin (z : ℚ) := by
  have key : ∀ n : Nat, n ≤ 2 ^ 53 → rnd (n : ℚ) = fin (n : ℚ) := by
    intro n hn
    rcases Nat.lt_or_ge n (2 ^ 53) with h1 | h1
    · exact rnd_natCast n h1
    · have : n = 2 ^ 53 := le_antisymm hn h1
      subst this
      decide!
  obtain ⟨n, rfl | rfl⟩ := Int.eq_nat_or_neg z
  · simpa using key n (by simpa using h)
  · have hk := key n (by simpa using h)
    simp only [Int.cast_neg, Int.cast_natCast, rnd_neg, hk]

end F64

/-! ## Facts about orders -/

theorem Order.addItems_items (xs : List OrderItem) :
    ∀ o : Order, (o.addItems xs).m_items = o.m_items ++ xs := by
  induction xs with
  | nil => intro o; simp [Order.addItems]
  | cons x xs ih =>
    intro o
    have h := ih (o.addItem x)
    simp only [Order.addItems, List.foldl_cons] at h ⊢
    rw [h]
    simp [Order.addItem]

theorem Order.total_addItems_empty (xs : List OrderItem) :
    (Order.empty.addItems xs).total =
      (xs.map OrderItem.totalPrice).foldl F64.add (F64.fin 0) := by
  unfold Order.total
  rw [Order.addItems_items, List.foldl_map]
  simp [Order.empty]

theorem F64.add_natCast (a b : Nat) (h : a + b ≤ 2 ^ 53) :
    F64.add (F64.fin a) (F64.fin b) = F64.fin ((a + b : Nat) : ℚ) := by
  have h1 := F64.rnd_intCast ((a + b : Nat) : Int) (by simpa using h)
  simp only [F64.add]
  simpa using h1

theorem F64.foldl_add_natCast (f : OrderItem → Nat) (xs : List OrderItem) :
    ∀ a : Nat, (∀ x ∈ xs, x.totalPrice = F64.fin (f x)) → a + (xs.map f).sum ≤ 2 ^ 53 →
      xs.foldl (fun sum it => F64.add sum it.totalPrice) (F64.fin a) =
        F64.fin ((a + (xs.map f).sum : Nat) : ℚ) := by
  induction xs with
  | nil => intro a _ _; simp
  | cons x xs ih =>
    intro a hx hs
    simp only [List.map_cons, List.sum_cons] at hs
    have hx0 : x.totalPrice = F64.fin (f x) := hx x (List.mem_cons_self _ _)
    have hrest : ∀ y ∈ xs, y.totalPrice = F64.fin (f y) :=
      fun y hy => hx y (List.mem_cons_of_mem _ hy)
    rw [List.foldl_cons, hx0, F64.add_natCast a (f x) (by omega), ih (a + f x) hrest (by omega)]
    simp only [List.map_cons, List.sum_cons, Nat.add_assoc]

theorem Order.total_addItems_natCast (f : OrderItem → Nat) (xs : List OrderItem)
    (hx : ∀ x ∈ xs, x.totalPrice = F64.fin (f x)) (hs : (xs.map f).sum ≤ 2 ^ 53) :
    (Order.empty.addItems xs).total = F64.fin (((xs.map f).sum : Nat) : ℚ) := by
  unfold Order.total
  rw [Order.addItems_items]
  have h := F64.foldl_add_natCast f xs 0 hx (by omega)
  simpa [Order.empty] using h

theorem Checkout.foldl_mutate (ops : List OrderOp) :
    ∀ s : Checkout, ops.foldl Checkout.mutate s =
      { live := ops.foldl Order.apply s.live, pay := s.pay } := by
  induction ops with
  | nil => intro s; rfl
  | cons op ops ih => intro s; simp [List.foldl_cons, ih, Checkout.mutate]

theorem MainWindow.addToOrder_of_valid (fmt : QtFormat) (w : MainWindow) (pz : Pizza)
    (hi : 0 ≤ w.ui.pizzaIndex) (hq : 1 ≤ w.ui.quantity)
    (hm : w.m_menu.get? w.ui.pizzaIndex.toNat = some pz) :
    ∃ w1 : MainWindow, MainWindow.on_addToOrderButton_clicked fmt w = some w1 ∧
      w1.m_currentOrder = w.m_currentOrder.addItem (OrderItem.new pz w.ui.quantity) ∧
      w1.m_menu = w.m_menu ∧ w1.dialogs = w.dialogs ∧
      w1.ui.orderListWidget =
        (w.m_currentOrder.addItem (OrderItem.new pz w.ui.quantity)).items.map
          (fun it => fmt.orderLine it.pizza.name it.quantity it.totalPrice) ∧
      w1.ui.totalLabel =
        fmt.totalText (w.m_currentOrder.addItem (OrderItem.new pz w.ui.quantity)).total := by
  have hg : ¬ (w.ui.pizzaIndex < 0 ∨ w.ui.quantity < 1) := by omega
  unfold MainWindow.on_addToOrderButton_clicked
  simp only [hg, if_false, hm]
  exact ⟨_, rfl, rfl, rfl, rfl, rfl, rfl⟩

theorem MainWindow.payNow_order (fmt : QtFormat) (w : MainWindow) :
    (MainWindow.on_payNowButton_clicked fmt w).m_currentOrder = w.m_currentOrder.clear ∧
    (MainWindow.on_payNowButton_clicked fmt w).dialogs = w.dialogs ++
      [Dialog.information "Payment" (fmt.paidText w.m_currentOrder.total w.ui.paymentText)] :=
  ⟨rfl, rfl⟩

/-! ## The claims -/

/-- C1 (counterexample): three line items priced 0.1, 0.2 and 0.3, one of each.  The prices are
doubles and the two sequences of `addItem` calls are permutations of each other, yet `total()` is
0.6000000000000001 when they are added in the order 0.1, 0.2, 0.3 and 0.6 (the double nearest
to it) in the order 0.3, 0.2, 0.1: the total depends on the order of the calls. -/
theorem C1_total_differs_between_permutations :
    F64.IsDouble (F64.rnd (1 / 10)) ∧ F64.IsDouble (F64.rnd (2 / 10)) ∧
    F64.IsDouble (F64.rnd (3 / 10)) ∧
    List.Perm
      [OrderItem.new (Pizza.new "A" (F64.rnd (1 / 10))) 1,
       OrderItem.new (Pizza.new "B" (F64.rnd (2 / 10))) 1,
       OrderItem.new (Pizza.new "C" (F64.rnd (3 / 10))) 1]
      [OrderItem.new (Pizza.new "C" (F64.rnd (3 / 10))) 1,
       OrderItem.new (Pizza.new "B" (F64.rnd (2 / 10))) 1,
       OrderItem.new (Pizza.new "A" (F64.rnd (1 / 10))) 1] ∧
    (Order.empty.addItems
      [OrderItem.new (Pizza.new "A" (F64.rnd (1 / 10))) 1,
       OrderItem.new (Pizza.new "B" (F64.rnd (2 / 10))) 1,
       OrderItem.new (Pizza.new "C" (F64.rnd (3 / 10))) 1]).total
      = F64.fin (5404319552844596 / 9007199254740992) ∧
    (Order.empty.addItems
      [OrderItem.new (Pizza.new "C" (F64.rnd (3 / 10))) 1,
       OrderItem.new (Pizza.new "B" (F64.rnd (2 / 10))) 1,
       OrderItem.new (Pizza.new "A" (F64.rnd (1 / 10))) 1]).total
      = F64.fin (5404319552844595 / 9007199254740992) ∧
    (Order.empty.addItems
      [OrderItem.new (Pizza.new "A" (F64.rnd (1 / 10))) 1,
       OrderItem.new (Pizza.new "B" (F64.rnd (2 / 10))) 1,
       OrderItem.new (Pizza.new "C" (F64.rnd (3 / 10))) 1]).total ≠
    (Order.empty.addItems
      [OrderItem.new (Pizza.new "C" (F64.rnd (3 / 10))) 1,
       OrderItem.new (Pizza.new "B" (F64.rnd (2 / 10))) 1,
       OrderItem.new (Pizza.new "A" (F64.rnd (1 / 10))) 1]).total := by
  refine ⟨by decide!, by decide!, by decide!, by decide!, by decide!, by decide!, by decide!⟩

/-- C1 (amended): the empty order has total 0; after any sequence of `addItem` calls on an empty
order, `items()` is the sequence of added items and `total()` is the double-precision sum of
their line totals taken from 0 in the order of the calls, whatever the prices are; and when every
line total is a non-negative integer and the integers add up to at most `2 ^ 53`, `total()` is
their exact sum, so that every permutation of the calls gives the same total. -/
theorem C1_total_is_sum_in_call_order (xs ys : List OrderItem) (f : OrderItem → Nat) :
    Order.empty.total = F64.fin 0 ∧
    (Order.empty.addItems xs).items = xs ∧
    (Order.empty.addItems xs).total =
      (xs.map OrderItem.totalPrice).foldl F64.add (F64.fin 0) ∧
    (List.Perm xs ys → (∀ x ∈ xs, x.totalPrice = F64.fin (f x)) → (xs.map f).sum ≤ 2 ^ 53 →
      (Order.empty.addItems xs).total = F64.fin (((xs.map f).sum : Nat) : ℚ) ∧
      (Order.empty.addItems ys).total = (Order.empty.addItems xs).total) := by
  refine ⟨rfl, ?_, Order.total_addItems_empty xs, ?_⟩
  · simp [Order.items, Order.addItems_items, Order.empty]
  · intro hperm hint hsum
    have hs : (ys.map f).sum = (xs.map f).sum := ((hperm.map f).sum_eq).symm
    have hy : ∀ y ∈ ys, y.totalPrice = F64.fin (f y) := fun y h => hint y (hperm.mem_iff.2 h)
    refine ⟨Order.total_addItems_natCast f xs hint hsum, ?_⟩
    rw [Order.total_addItems_natCast f ys hy (by omega),
      Order.total_addItems_natCast f xs hint hsum, hs]

/-- C1 (witness): Pepperoni x2 and Margherita x1 at the menu prices 8 and 6; the line totals are
the integers 16 and 6, the total is the sum `(0 + 16) + 6` taken in that order, it is 22, and it
is the same in the reverse order. -/
theorem C1_total_is_sum_in_call_order_witness :
    (Order.empty.addItems
      [OrderItem.new (Pizza.new "Pepperoni" (F64.fin 8)) 2,
       OrderItem.new (Pizza.new "Margherita" (F64.fin 6)) 1]).total =
      F64.add (F64.add (F64.fin 0) (F64.fin 16)) (F64.fin 6) ∧
    (Order.empty.addItems
      [OrderItem.new (Pizza.new "Pepperoni" (F64.fin 8)) 2,
       OrderItem.new (Pizza.new "Margherita" (F64.fin 6)) 1]).total = F64.fin 22 ∧
    (Order.empty.addItems
      [OrderItem.new (Pizza.new "Margherita" (F64.fin 6)) 1,
       OrderItem.new (Pizza.new "Pepperoni" (F64.fin 8)) 2]).total =
    (Order.empty.addItems
      [OrderItem.new (Pizza.new "Pepperoni" (F64.fin 8)) 2,
       OrderItem.new (Pizza.new "Margherita" (F64.fin 6)) 1]).total := by
  have h := C1_total_is_sum_in_call_order
    [OrderItem.new (Pizza.new "Pepperoni" (F64.fin 8)) 2,
     OrderItem.new (Pizza.new "Margherita" (F64.fin 6)) 1]
    [OrderItem.new (Pizza.new "Margherita" (F64.fin 6)) 1,
     OrderItem.new (Pizza.new "Pepperoni" (F64.fin 8)) 2]
    (fun it => if it.m_qty = 2 then 16 else 6)
  have h2 := h.2.2.2 (List.Perm.swap _ _ _) (by decide!) (by decide)
  refine ⟨?_, ?_, h2.2⟩
  · rw [h.2.2.1]
    decide!
  · rw [h2.1]
    decide!

/-- C2: a payment constructed from an order `o` and a method reports `amount()` equal to
`o.total()`, and after any sequence of `addItem` and `clear` calls on the live order the payment
still holds the order it was given and still reports that amount. -/
theorem C2_payment_amount_is_snapshot (o : Order) (m : PaymentMethod) (ops : List OrderOp) :
    (Payment.new o m).amount = o.total ∧
    (ops.foldl Checkout.mutate (Checkout.start o m)).live = ops.foldl Order.apply o ∧
    (ops.foldl Checkout.mutate (Checkout.start o m)).pay.amount = o.total ∧
    (ops.foldl Checkout.mutate (Checkout.start o m)).pay.m_order = o := by
  rw [Checkout.foldl_mutate]
  exact ⟨rfl, rfl, rfl, rfl⟩

/-- C3: whatever the order held, after `clear()` the sequence `items()` is empty and `total()`
is 0. -/
theorem C3_clear_empties_order (o : Order) :
    o.clear.items = [] ∧ o.clear.total = F64.fin 0 := ⟨rfl, rfl⟩

/-- C4: `addItem(x)` leaves `items()` as the previous sequence followed by `x`: the length grows
by one, the earlier entries are the first entries of the new sequence, the last entry is `x`,
and adding the same item twice gives two entries. -/
theorem C4_addItem_appends (o : Order) (x : OrderItem) :
    (o.addItem x).items = o.items ++ [x] ∧
    (o.addItem x).items.length = o.items.length + 1 ∧
    (o.addItem x).items.take o.items.length = o.items ∧
    (o.addItem x).items.getLast? = some x ∧
    ((o.addItem x).addItem x).items = o.items ++ [x, x] ∧
    ((o.addItem x).addItem x).items.length = o.items.length + 2 := by
  simp [Order.addItem, Order.items]

/-- C5 (counterexample): a pizza priced 0.1 (a double) ordered 3 times.  `totalPrice()` is
0.30000000000000004, which is not the product of the price and the quantity: that product
needs 54 significant bits and the multiplication rounds it. -/
theorem C5_totalPrice_rounds_the_product :
    F64.IsDouble (F64.rnd (1 / 10)) ∧
    F64.rnd (1 / 10) = F64.fin (3602879701896397 / 36028797018963968) ∧
    (OrderItem.new (Pizza.new "Slice" (F64.rnd (1 / 10))) 3).totalPrice =
      F64.fin (5404319552844596 / 18014398509481984) ∧
    (OrderItem.new (Pizza.new "Slice" (F64.rnd (1 / 10))) 3).totalPrice ≠
      F64.fin (3602879701896397 / 36028797018963968 * 3) := by
  refine ⟨by decide!, by decide!, by decide!, by decide!⟩

/-- C5 (amended): for a finite unit price `p` and an `int` quantity `q`, `totalPrice()` is the
exact product `p * q` rounded to the nearest double, ties to even; it is `p * q` itself whenever
that product is an integer of magnitude at most `2 ^ 53`. -/
theorem C5_totalPrice_is_rounded_product (name : String) (p : ℚ) (q : Int)
    (hlo : -2 ^ 31 ≤ q) (hhi : q < 2 ^ 31) :
    (OrderItem.new (Pizza.new name (F64.fin p)) q).totalPrice = F64.rnd (p * q) ∧
    ∀ z : Int, p * q = z → z.natAbs ≤ 2 ^ 53 →
      (OrderItem.new (Pizza.new name (F64.fin p)) q).totalPrice = F64.fin (p * q) := by
  have hq : F64.ofInt q = F64.fin (q : ℚ) := F64.rnd_intCast q (by omega)
  have h1 : (OrderItem.new (Pizza.new name (F64.fin p)) q).totalPrice = F64.rnd (p * q) := by
    simp only [OrderItem.totalPrice, OrderItem.new, Pizza.new, Pizza.price, hq, F64.mul]
  refine ⟨h1, ?_⟩
  intro z hz hb
  rw [h1, hz]
  exact F64.rnd_intCast z hb

/-- C5 (witness): Pepperoni at 8.00 ordered twice costs exactly 16. -/
theorem C5_totalPrice_is_rounded_product_witness :
    (OrderItem.new (Pizza.new "Pepperoni" (F64.fin 8)) 2).totalPrice = F64.fin 16 := by
  have h := (C5_totalPrice_is_rounded_product "Pepperoni" 8 2 (by decide) (by decide)).2 16
    (by norm_num) (by decide)
  rw [h]
  norm_num

/-- C6 (counterexample): constructing an `OrderItem` with quantity 0, or with quantity -3,
yields an object whose `quantity()` is below 1; nothing fails. -/
theorem C6_orderItem_accepts_quantity_below_one :
    (∃ it : OrderItem, it = OrderItem.new (Pizza.new "Margherita" (F64.fin 6)) 0 ∧
      it.quantity = 0 ∧ it.quantity < 1) ∧
    (∃ it : OrderItem, it = OrderItem.new (Pizza.new "Margherita" (F64.fin 6)) (-3) ∧
      it.quantity = -3 ∧ it.quantity < 1) := by
  exact ⟨⟨_, rfl, rfl, by decide⟩, ⟨_, rfl, rfl, by decide⟩⟩

/-- C6 (amended): constructing an `OrderItem` succeeds for every quantity, below 1 included, and
the object reports the pizza and the quantity it was given. -/
theorem C6_orderItem_construction_is_total (pz : Pizza) (q : Int) :
    (OrderItem.new pz q).quantity = q ∧ (OrderItem.new pz q).pizza = pz := ⟨rfl, rfl⟩

/-- C7 (counterexample): on a payment for the empty order, `process()` returns `true`, and a
second `process()` on the same object returns `true` again. -/
theorem C7_second_process_succeeds_again :
    (Payment.new Order.empty PaymentMethod.Cash).process.1 = true ∧
    (Payment.new Order.empty PaymentMethod.Cash).process.2.process.1 = true := ⟨rfl, rfl⟩

/-- C7 (amended): every call of `process()` returns `true` and leaves the payment as it was, so
a second call on the same payment returns `true` as the first did. -/
theorem C7_process_always_succeeds (p : Payment) :
    p.process.1 = true ∧ p.process.2 = p ∧ p.process.2.process.1 = true ∧
    p.process.2.process.2 = p := ⟨rfl, rfl, rfl, rfl⟩

/-- C8: for every window state and payment label, the payment that checkout builds has
`amount()` equal to the total of the current order, `process()` returns `true`, the success
dialog carries that amount and the label, and afterwards the current order is empty with total 0
and the list widget and total label are reset.  In the scenario, starting from a new window,
Pepperoni x2 gives total 16, then Margherita x1 gives total 22 with the two items in that order,
and paying by "Credit Card" charges 22 by credit card and leaves an empty order. -/
theorem C8_checkout_charges_total_and_clears (fmt : QtFormat) (w : MainWindow) (ui0 : Ui) :
    ((MainWindow.payNow_pay w).amount = w.m_currentOrder.total ∧
     (MainWindow.payNow_pay w).process.1 = true ∧
     (MainWindow.on_payNowButton_clicked fmt w).dialogs = w.dialogs ++
       [Dialog.information "Payment" (fmt.paidText w.m_currentOrder.total w.ui.paymentText)] ∧
     (MainWindow.on_payNowButton_clicked fmt w).m_currentOrder.items = [] ∧
     (MainWindow.on_payNowButton_clicked fmt w).m_currentOrder.total = F64.fin 0 ∧
     (MainWindow.on_payNowButton_clicked fmt w).ui.orderListWidget = [] ∧
     (MainWindow.on_payNowButton_clicked fmt w).ui.totalLabel = "$0.00") ∧
    (∃ w1 w2 : MainWindow,
      MainWindow.on_addToOrderButton_clicked fmt ((MainWindow.new ui0).choose 1 2) = some w1 ∧
      w1.m_currentOrder.items = [OrderItem.new (Pizza.new "Pepperoni" (F64.fin 8)) 2] ∧
      w1.m_currentOrder.total = F64.fin 16 ∧
      MainWindow.on_addToOrderButton_clicked fmt (w1.choose 0 1) = some w2 ∧
      w2.m_currentOrder.items = [OrderItem.new (Pizza.new "Pepperoni" (F64.fin 8)) 2,
        OrderItem.new (Pizza.new "Margherita" (F64.fin 6)) 1] ∧
      w2.m_currentOrder.total = F64.fin 22 ∧
      (MainWindow.payNow_pay (w2.choosePayment "Credit Card")).amount = F64.fin 22 ∧
      (MainWindow.payNow_pay (w2.choosePayment "Credit Card")).method =
        PaymentMethod.CreditCard ∧
      (MainWindow.payNow_pay (w2.choosePayment "Credit Card")).process.1 = true ∧
      (MainWindow.on_payNowButton_clicked fmt (w2.choosePayment "Credit Card")).dialogs =
        [Dialog.information "Payment" (fmt.paidText (F64.fin 22) "Credit Card")] ∧
      (MainWindow.on_payNowButton_clicked fmt
        (w2.choosePayment "Credit Card")).m_currentOrder.items = [] ∧
      (MainWindow.on_payNowButton_clicked fmt
        (w2.choosePayment "Credit Card")).m_currentOrder.total = F64.fin 0) := by
  have h16 : (Order.empty.addItem (OrderItem.new (Pizza.new "Pepperoni" (F64.fin 8)) 2)).total
      = F64.fin 16 := by decide!
  have h22 : ((Order.empty.addItem (OrderItem.new (Pizza.new "Pepperoni" (F64.fin 8)) 2)).addItem
      (OrderItem.new (Pizza.new "Margherita" (F64.fin 6)) 1)).total = F64.fin 22 := by decide!
  refine ⟨⟨rfl, rfl, rfl, rfl, rfl, rfl, rfl⟩, ?_⟩
  obtain ⟨w1, e1, o1, m1, d1, -, -⟩ := MainWindow.addToOrder_of_valid fmt
    ((MainWindow.new ui0).choose 1 2) (Pizza.new "Pepperoni" (F64.fin 8))
    (show (0 : Int) ≤ 1 by decide) (show (1 : Int) ≤ 2 by decide) rfl
  have o1a : w1.m_currentOrder =
      Order.empty.addItem (OrderItem.new (Pizza.new "Pepperoni" (F64.fin 8)) 2) := o1
  have m1a : w1.m_menu = (MainWindow.new ui0).m_menu := m1
  have d1a : w1.dialogs = [] := d1
  obtain ⟨w2, e2, o2, -, d2, -, -⟩ := MainWindow.addToOrder_of_valid fmt
    (w1.choose 0 1) (Pizza.new "Margherita" (F64.fin 6))
    (show (0 : Int) ≤ 0 by decide) (show (1 : Int) ≤ 1 by decide)
    (show w1.m_menu.get? 0 = _ by rw [m1a]; rfl)
  have o2a : w2.m_currentOrder =
      (Order.empty.addItem (OrderItem.new (Pizza.new "Pepperoni" (F64.fin 8)) 2)).addItem
        (OrderItem.new (Pizza.new "Margherita" (F64.fin 6)) 1) := by
    rw [o2]
    show w1.m_currentOrder.addItem _ = _
    rw [o1a]
    rfl
  have d2a : w2.dialogs = [] := d2.trans d1a
  have t2 : w2.m_currentOrder.total = F64.fin 22 := by rw [o2a]; exact h22
  have hpay := MainWindow.payNow_order fmt (w2.choosePayment "Credit Card")
  have hd : (MainWindow.on_payNowButton_clicked fmt (w2.choosePayment "Credit Card")).dialogs =
      [Dialog.information "Payment" (fmt.paidText (F64.fin 22) "Credit Card")] := by
    rw [hpay.2]
    show w2.dialogs ++ [Dialog.information "Payment"
      (fmt.paidText w2.m_currentOrder.total "Credit Card")] = _
    rw [d2a, t2]
    rfl
  refine ⟨w1, w2, e1, ?_, ?_, e2, ?_, t2, t2, rfl, rfl, hd, ?_, ?_⟩
  · rw [Order.items, o1a]; rfl
  · rw [o1a]; exact h16
  · rw [Order.items, o2a]; rfl
  · rw [hpay.1]; rfl
  · rw [hpay.1]; rfl

/-- C9: the add-to-order step with no selection (index below 0) or with a quantity below 1
returns with the window, and so the order, its items and its total, unchanged; with an index
that names a menu entry and a quantity of at least 1 it appends exactly one line item, and that
item reports the menu entry as its `pizza()`, the chosen quantity as its `quantity()`, and the
product of the entry's price and the quantity as its `totalPrice()`. -/
theorem C9_addToOrder_guards_input (fmt : QtFormat) (w : MainWindow) :
    (w.ui.pizzaIndex < 0 ∨ w.ui.quantity < 1 →
      MainWindow.on_addToOrderButton_clicked fmt w = some w ∧
      ∀ w0 : MainWindow, MainWindow.on_addToOrderButton_clicked fmt w = some w0 →
        w0.m_currentOrder.items = w.m_currentOrder.items ∧
        w0.m_currentOrder.total = w.m_currentOrder.total) ∧
    (∀ pz : Pizza, 0 ≤ w.ui.pizzaIndex → 1 ≤ w.ui.quantity →
      w.m_menu.get? w.ui.pizzaIndex.toNat = some pz →
      ∃ w1 : MainWindow, MainWindow.on_addToOrderButton_clicked fmt w = some w1 ∧
        w1.m_currentOrder.items =
          w.m_currentOrder.items ++ [OrderItem.new pz w.ui.quantity] ∧
        w1.m_currentOrder.items.length = w.m_currentOrder.items.length + 1 ∧
        w1.m_menu = w.m_menu ∧
        ∃ it : OrderItem, w1.m_currentOrder.items = w.m_currentOrder.items ++ [it] ∧
          it.pizza = pz ∧ it.quantity = w.ui.quantity ∧
          it.pizza.name = pz.m_name ∧ it.pizza.price = pz.m_price ∧
          it.totalPrice = F64.mul pz.m_price (F64.ofInt w.ui.quantity)) := by
  constructor
  · intro h
    have e : MainWindow.on_addToOrderButton_clicked fmt w = some w := by
      unfold MainWindow.on_addToOrderButton_clicked
      simp only [h, if_true]
    refine ⟨e, ?_⟩
    intro w0 h0
    rw [e] at h0
    cases h0
    exact ⟨rfl, rfl⟩
  · intro pz hi hq hm
    obtain ⟨w1, e1, o1, m1, -, -, -⟩ := MainWindow.addToOrder_of_valid fmt w pz hi hq hm
    have hitems : w1.m_currentOrder.items =
        w.m_currentOrder.items ++ [OrderItem.new pz w.ui.quantity] := by rw [o1]; rfl
    refine ⟨w1, e1, hitems, ?_, m1, OrderItem.new pz w.ui.quantity, hitems,
      rfl, rfl, rfl, rfl, rfl⟩
    rw [o1]; simp [Order.items, Order.addItem]

/-- C9 (witness): on a new window, index -1 with quantity 2 and index 0 with quantity 0 both
leave the window as it was, and index 2 with quantity 3 adds a single item whose pizza is
Hawaiian at 9.00 and whose quantity is 3. -/
theorem C9_addToOrder_guards_input_witness :
    MainWindow.on_addToOrderButton_clicked QtFormat.sample
      ((MainWindow.new Ui.sample).choose (-1) 2) =
        some ((MainWindow.new Ui.sample).choose (-1) 2) ∧
    MainWindow.on_addToOrderButton_clicked QtFormat.sample
      ((MainWindow.new Ui.sample).choose 0 0) =
        some ((MainWindow.new Ui.sample).choose 0 0) ∧
    ∃ w1 : MainWindow, MainWindow.on_addToOrderButton_clicked QtFormat.sample
      ((MainWindow.new Ui.sample).choose 2 3) = some w1 ∧
      w1.m_currentOrder.items = [OrderItem.new (Pizza.new "Hawaiian" (F64.fin 9)) 3] ∧
      w1.m_currentOrder.items.map (fun it => it.pizza.name) = ["Hawaiian"] ∧
      w1.m_currentOrder.items.map (fun it => it.pizza.price) = [F64.fin 9] ∧
      w1.m_currentOrder.items.map OrderItem.quantity = [3] := by
  refine ⟨((C9_addToOrder_guards_input QtFormat.sample
      ((MainWindow.new Ui.sample).choose (-1) 2)).1
        (Or.inl (show (-1 : Int) < 0 by decide))).1,
    ((C9_addToOrder_guards_input QtFormat.sample
      ((MainWindow.new Ui.sample).choose 0 0)).1
        (Or.inr (show (0 : Int) < 1 by decide))).1, ?_⟩
  obtain ⟨w1, e1, o1, -, -, it, hit, hp, hq, hn, hpr, -⟩ :=
    (C9_addToOrder_guards_input QtFormat.sample
      ((MainWindow.new Ui.sample).choose 2 3)).2 (Pizza.new "Hawaiian" (F64.fin 9))
      (show (0 : Int) ≤ 2 by decide) (show (1 : Int) ≤ 3 by decide) rfl
  have hit1 : w1.m_currentOrder.items = [it] := hit
  refine ⟨w1, e1, o1, ?_, ?_, ?_⟩
  · rw [hit1]; simp only [List.map_cons, List.map_nil, hn]; rfl
  · rw [hit1]; simp only [List.map_cons, List.map_nil, hpr]; rfl
  · rw [hit1]; simp only [List.map_cons, List.map_nil, hq]; rfl

/-- C10: the label "Credit Card" maps to `CreditCard`, "Mobile Pay" to `MobilePay`, "Cash" to
`Cash`, and every label other than the first two to `Cash`; the payment built at checkout
reports the method mapped from the current payment text. -/
theorem C10_payment_label_mapping (w : MainWindow) (label : String) :
    MainWindow.payNow_method "Credit Card" = PaymentMethod.CreditCard ∧
    MainWindow.payNow_method "Mobile Pay" = PaymentMethod.MobilePay ∧
    MainWindow.payNow_method "Cash" = PaymentMethod.Cash ∧
    (label ≠ "Credit Card" → label ≠ "Mobile Pay" →
      MainWindow.payNow_method label = PaymentMethod.Cash) ∧
    (MainWindow.payNow_pay w).method = MainWindow.payNow_method w.ui.paymentText ∧
    (MainWindow.payNow_pay (w.choosePayment label)).method =
      MainWindow.payNow_method label := by
  refine ⟨by decide, by decide, by decide, ?_, rfl, rfl⟩
  intro h1 h2
  simp [MainWindow.payNow_method, h1, h2]

/-- C10 (witness): the unrecognised label "Bitcoin" is paid as `Cash`. -/
theorem C10_payment_label_mapping_witness :
    MainWindow.payNow_method "Bitcoin" = PaymentMethod.Cash ∧
    (MainWindow.payNow_pay ((MainWindow.new Ui.sample).choosePayment "Bitcoin")).method =
      PaymentMethod.Cash := by
  have h := C10_payment_label_mapping (MainWindow.new Ui.sample) "Bitcoin"
  have hc : MainWindow.payNow_method "Bitcoin" = PaymentMethod.Cash :=
    h.2.2.2.1 (by decide) (by decide)
  exact ⟨hc, h.2.2.2.2.2.trans hc⟩
